import Mathlib

/-!
Shallow embedding of the context-management core of the repository:
`src/workflow/context_shelf.py` (tiered context shelf) and
`src/workflow/retrieval_index.py` (tag-based retrieval index).

Modelling conventions:
* Python `float` timestamps from `time.time()` are modelled as a `Nat`
  clock value `now` passed to each operation (all `time.time()` calls
  inside one operation observe the same instant).
* Python `dict[str, str]` is modelled as an association list
  `List (String × String)`; `d.get(k)` is first-match lookup.
* Methods that mutate `self` are modelled by returning the new state.
  A method that both returns a value and mutates returns a pair.
* `raise OverflowError(msg)` is modelled as `Except.error msg`; since the
  Python call mutates `self.entries` (evictions) before raising, `store`
  returns the post-state alongside the `Except` result.
* Python `list.remove(x)` removes the first element equal (`__eq__`,
  i.e. dataclass field equality) to `x`; it is modelled by `removeFirst`.
-/

namespace Grimoire

/-- The five shelf tiers of `ShelfTier` in `context_shelf.py`. -/
inductive ShelfTier where
  | HOT
  | WARM
  | COLD
  | PINNED
  | SCRATCH
deriving DecidableEq, Repr

/-- `ShelfEntry` dataclass: one piece of content held on the shelf. -/
structure ShelfEntry where
  content : String
  tier : ShelfTier
  source : String
  token_count : Nat
  tags : List (String × String)
  created_at : Nat
  last_accessed : Nat
  access_count : Nat
deriving DecidableEq, Repr

/-- `ShelfEntry.touch`: refresh `last_accessed` to the current time and
increment `access_count`. -/
def ShelfEntry.touch (e : ShelfEntry) (now : Nat) : ShelfEntry :=
  { e with last_accessed := now, access_count := e.access_count + 1 }

/-- `ContextShelf`: capacity (in estimated tokens) plus the entry list. -/
structure ContextShelf where
  capacity : Nat
  entries : List ShelfEntry
deriving DecidableEq, Repr

/-- Sum of `token_count` over a list of entries (helper for `used`). -/
def usedOf (l : List ShelfEntry) : Nat :=
  (l.map ShelfEntry.token_count).sum

/-- `ContextShelf.used` property: total tokens held. -/
def ContextShelf.used (s : ContextShelf) : Nat :=
  usedOf s.entries

/-- `ContextShelf.remaining` property: `capacity - used` as a Python `int`
(which can go negative), hence `Int`. -/
def ContextShelf.remaining (s : ContextShelf) : Int :=
  (s.capacity : Int) - (s.used : Int)

/-- `ContextShelf._estimate_tokens`: rough estimate, ~4 chars per token. -/
def estimate_tokens (text : String) : Nat :=
  max 1 (text.length / 4)

/-- `ContextShelf._EVICTION_ORDER`: evict cheapest tiers first;
HOT/PINNED are structurally immune. -/
def EVICTION_ORDER : List ShelfTier :=
  [ShelfTier.SCRATCH, ShelfTier.COLD, ShelfTier.WARM]

/-- `ContextShelf._can_evict`: some entry sits in an eviction-eligible tier. -/
def ContextShelf.can_evict (s : ContextShelf) : Bool :=
  s.entries.any (fun e => decide (e.tier ∈ EVICTION_ORDER))

/-- Minimum `last_accessed` over a (nonempty) candidate list; the key of
Python `min(candidates, key=lambda e: e.last_accessed)`. -/
def minLA : List ShelfEntry → Nat
  | [] => 0
  | [e] => e.last_accessed
  | e :: e' :: es => min e.last_accessed (minLA (e' :: es))

/-- Remove the first element satisfying `p` (Python `list.remove(victim)`,
where the first element equal to the chosen victim is the first element
satisfying `p`, see the note on `_evict_one` below). -/
def removeFirst (p : ShelfEntry → Bool) : List ShelfEntry → List ShelfEntry
  | [] => []
  | e :: es => if p e then es else e :: removeFirst p es

/-- The loop body of `ContextShelf._evict_one` over the tier priority list:
find the first tier with candidates, and remove the first entry of that
tier whose `last_accessed` is minimal among the tier's candidates.
(Python computes `victim = min(candidates, key=last_accessed)` — the first
candidate attaining the minimum — and calls `entries.remove(victim)`;
any entry equal to the victim has the same tier and `last_accessed`, so the
first equal element is exactly the first minimal candidate.) -/
def evictFromTiers (entries : List ShelfEntry) : List ShelfTier → List ShelfEntry
  | [] => entries
  | t :: ts =>
    let candidates := entries.filter (fun e => e.tier == t)
    if candidates.isEmpty then
      evictFromTiers entries ts
    else
      removeFirst (fun e => e.tier == t && e.last_accessed == minLA candidates) entries

/-- `ContextShelf._evict_one`: evict the least valuable entry — SCRATCH
first, then COLD, then WARM; within a tier, least recently accessed. -/
def ContextShelf.evict_one (s : ContextShelf) : ContextShelf :=
  { s with entries := evictFromTiers s.entries EVICTION_ORDER }

/-- The `while self.remaining < token_count and self._can_evict()` loop of
`store`, with structural fuel. Each iteration evicts exactly one entry, so
`fuel = entries.length` (supplied by `store`) makes the fuel version agree
with the unbounded loop: once `fuel` iterations have run the shelf is empty
and the loop condition is false anyway. -/
def evictLoop (tc : Nat) : Nat → ContextShelf → ContextShelf
  | 0, s => s
  | fuel + 1, s =>
    if s.remaining < (tc : Int) ∧ s.can_evict = true then
      evictLoop tc fuel s.evict_one
    else
      s

/-- `ContextShelf.store`: store content on the shelf, evicting if necessary;
raises `OverflowError` when nothing evictable is left and the content still
does not fit. Returns the created entry (or the error) and the post-state. -/
def ContextShelf.store (s : ContextShelf) (content : String) (tier : ShelfTier)
    (source : String) (tags : List (String × String)) (now : Nat) :
    Except String ShelfEntry × ContextShelf :=
  let token_count := estimate_tokens content
  let s1 := evictLoop token_count s.entries.length s
  if s1.remaining < (token_count : Int) then
    (Except.error ("Cannot store " ++ toString token_count ++ " tokens, only "
      ++ toString s1.remaining ++ " remaining and nothing left to evict"), s1)
  else
    let entry : ShelfEntry :=
      { content := content, tier := tier, source := source,
        token_count := token_count, tags := tags,
        created_at := now, last_accessed := now, access_count := 0 }
    (Except.ok entry, { s1 with entries := s1.entries ++ [entry] })

/-- `e.tags.get(k)`: first-match lookup in the tag dictionary. -/
def tagsGet (tags : List (String × String)) (k : String) : Option String :=
  (tags.find? (fun kv => kv.1 == k)).map (fun kv => kv.2)

/-- `all(e.tags.get(k) == v for k, v in tag_filter.items())`. -/
def matchesTags (tag_filter : List (String × String)) (e : ShelfEntry) : Bool :=
  tag_filter.all (fun kv => tagsGet e.tags kv.1 == some kv.2)

/-- The tier part of `retrieve`'s filtering (`None` is a wildcard). -/
def matchesTier (tier : Option ShelfTier) (e : ShelfEntry) : Bool :=
  match tier with
  | none => true
  | some t => e.tier == t

/-- `ContextShelf.retrieve`: filter by tier and/or tags, `touch` every
returned entry in place (modelled by mapping `touch` over the matching
entries of the stored list), and return the results with the post-state.
Python's `if tag_filter:` skips the tag pass when the dict is empty. -/
def ContextShelf.retrieve (s : ContextShelf) (tier : Option ShelfTier)
    (tag_filter : List (String × String)) (now : Nat) :
    List ShelfEntry × ContextShelf :=
  let r1 := match tier with
    | none => s.entries
    | some t => s.entries.filter (fun e => e.tier == t)
  let r2 := if tag_filter.isEmpty then r1 else r1.filter (matchesTags tag_filter)
  (r2.map (fun e => e.touch now),
   { s with entries := s.entries.map (fun e =>
       if matchesTier tier e && (tag_filter.isEmpty || matchesTags tag_filter e)
       then e.touch now else e) })

/-- `ContextShelf.promote`: move the referenced entry (modelled by its index)
to a new tier and `touch` it. Out-of-range indices (impossible for a real
Python object reference) leave the shelf unchanged. -/
def ContextShelf.promote (s : ContextShelf) (i : Nat) (new_tier : ShelfTier)
    (now : Nat) : ContextShelf :=
  match s.entries[i]? with
  | none => s
  | some e => { s with entries := s.entries.set i (ShelfEntry.touch { e with tier := new_tier } now) }

/-- `ContextShelf.demote`: move the referenced entry to a new tier
(no `touch`). -/
def ContextShelf.demote (s : ContextShelf) (i : Nat) (new_tier : ShelfTier) :
    ContextShelf :=
  match s.entries[i]? with
  | none => s
  | some e => { s with entries := s.entries.set i { e with tier := new_tier } }

/-- The preview of one entry in `summarize_and_compress`:
`f"[{e.source}]: {e.content[:200]}..."` when the content exceeds 200
characters, else `f"[{e.source}]: {e.content}"`. -/
def entryPreview (e : ShelfEntry) : String :=
  if e.content.length > 200 then
    "[" ++ e.source ++ "]: " ++ (e.content.take 200) ++ "..."
  else
    "[" ++ e.source ++ "]: " ++ e.content

/-- The `combined` string of `summarize_and_compress`: previews joined by
`"\n---\n"`. -/
def joinPreviews (targets : List ShelfEntry) : String :=
  String.intercalate "\n---\n" (targets.map entryPreview)

/-- `ContextShelf.summarize_and_compress`: compress all entries of a tier
into a single summary entry; returns tokens freed (a Python `int`, possibly
negative) and the post-state. The loop of `entries.remove(target)` over the
targets (exactly the entries of the tier) leaves the other entries in
order, i.e. `entries.filter (tier ≠ t)`. -/
def ContextShelf.summarize_and_compress (s : ContextShelf) (tier : ShelfTier)
    (now : Nat) : Int × ContextShelf :=
  let targets := s.entries.filter (fun e => e.tier == tier)
  if targets.isEmpty then
    (0, s)
  else
    let original_tokens := usedOf targets
    let combined := joinPreviews targets
    let summary : ShelfEntry :=
      { content := "[COMPRESSED SUMMARY]\n" ++ combined,
        tier := tier, source := "compression",
        token_count := estimate_tokens combined, tags := [],
        created_at := now, last_accessed := now, access_count := 0 }
    ((original_tokens : Int) - (summary.token_count : Int),
     { s with entries := s.entries.filter (fun e => !(e.tier == tier)) ++ [summary] })

/-! ### Retrieval index (`retrieval_index.py`) -/

/-- `TagType`: the type dimension. -/
inductive TagType where
  | SOURCE_CODE
  | CONFIG
  | TEST
  | DOCS
  | ERROR_LOG
  | USER_INTENT
  | TOOL_RESULT
deriving DecidableEq, Repr

/-- `TagRelevance`: the relevance dimension. -/
inductive TagRelevance where
  | CRITICAL
  | USEFUL
  | AMBIENT
  | NOISE
deriving DecidableEq, Repr

/-- `TagVolatility`: the volatility dimension. -/
inductive TagVolatility where
  | STATIC
  | STALE_RISK
  | LIVE
  | EPHEMERAL
deriving DecidableEq, Repr

/-- `TagScope`: the scope dimension. -/
inductive TagScope where
  | THIS_FUNCTION
  | THIS_FILE
  | THIS_MODULE
  | CROSS_MODULE
  | WHOLE_PROJECT
  | EXTERNAL_DEP
deriving DecidableEq, Repr

/-- `TagTrust`: the trust dimension. -/
inductive TagTrust where
  | VERIFIED
  | REPORTED
  | INFERRED
  | STALE
deriving DecidableEq, Repr

/-- `Tag` dataclass: one value per dimension. -/
structure Tag where
  type : TagType
  relevance : TagRelevance
  volatility : TagVolatility
  scope : TagScope
  trust : TagTrust
deriving DecidableEq, Repr

/-- `TokenChunk` dataclass: a chunk of consumed tokens with its tags.
`metadata : dict[str, Any]` is modelled as a string association list. -/
structure TokenChunk where
  content : String
  source : String
  token_count : Nat
  tag : Tag
  metadata : List (String × String)
deriving DecidableEq, Repr

/-- `RetrievalIndex`: the list of all indexed chunks. -/
structure RetrievalIndex where
  chunks : List TokenChunk
deriving DecidableEq, Repr

/-- `RetrievalIndex.index`: append a chunk. -/
def RetrievalIndex.index (idx : RetrievalIndex) (chunk : TokenChunk) :
    RetrievalIndex :=
  { idx with chunks := idx.chunks ++ [chunk] }

/-- `RetrievalIndex.index_raw`: build a chunk (size via the inline
`max(1, len(content) // 4)` estimate), index it, return it with the
post-state. -/
def RetrievalIndex.index_raw (idx : RetrievalIndex) (content : String)
    (source : String) (type : TagType) (relevance : TagRelevance)
    (volatility : TagVolatility) (scope : TagScope) (trust : TagTrust)
    (metadata : List (String × String)) : TokenChunk × RetrievalIndex :=
  let chunk : TokenChunk :=
    { content := content, source := source,
      token_count := max 1 (content.length / 4),
      tag := { type := type, relevance := relevance, volatility := volatility,
               scope := scope, trust := trust },
      metadata := metadata }
  (chunk, idx.index chunk)

/-- `RetrievalIndex.query`: filter chunks by any combination of the five
tag dimensions, each specified filter by equality, sequentially. -/
def RetrievalIndex.query (idx : RetrievalIndex) (type : Option TagType)
    (relevance : Option TagRelevance) (volatility : Option TagVolatility)
    (scope : Option TagScope) (trust : Option TagTrust) : List TokenChunk :=
  let r0 := idx.chunks
  let r1 := match type with
    | none => r0
    | some x => r0.filter (fun c => c.tag.type == x)
  let r2 := match relevance with
    | none => r1
    | some x => r1.filter (fun c => c.tag.relevance == x)
  let r3 := match volatility with
    | none => r2
    | some x => r2.filter (fun c => c.tag.volatility == x)
  let r4 := match scope with
    | none => r3
    | some x => r3.filter (fun c => c.tag.scope == x)
  match trust with
  | none => r4
  | some x => r4.filter (fun c => c.tag.trust == x)

/-- `RetrievalIndex.critical`: everything tagged as critical. -/
def RetrievalIndex.critical (idx : RetrievalIndex) : List TokenChunk :=
  idx.query none (some TagRelevance.CRITICAL) none none none

/-- `RetrievalIndex.stale`: everything that might be outdated — trust is
STALE **or** volatility is STALE_RISK. -/
def RetrievalIndex.stale (idx : RetrievalIndex) : List TokenChunk :=
  idx.chunks.filter (fun c =>
    c.tag.trust == TagTrust.STALE || c.tag.volatility == TagVolatility.STALE_RISK)

/-- `RetrievalIndex.by_source`: all chunks from a specific source. -/
def RetrievalIndex.by_source (idx : RetrievalIndex) (source : String) :
    List TokenChunk :=
  idx.chunks.filter (fun c => c.source == source)

/-! ### Reference-semantics (heap) model for the snapshot claim

Python lists are mutable heap objects; `query()` with every filter `None`
returns `self.chunks` itself (the live internal list), while each applied
comprehension builds a fresh list. To reason about aliasing we model a heap
of list cells addressed by `Nat`, and an index object holding the address
of its `chunks` list. Only the identity of the *returned* list is
observable to callers, so the intermediate comprehensions of a
multi-filter query are collapsed into the single final allocation. -/

/-- A heap of Python list objects (elements of type `α`), addressed by
allocation index. -/
structure PyHeap (α : Type) where
  cells : List (List α)

/-- Dereference a list address (out-of-range reads give `[]`; all addresses
used by the model are allocated). -/
def PyHeap.getCell {α : Type} (h : PyHeap α) (a : Nat) : List α :=
  (h.cells[a]?).getD []

/-- In-place update of the list object at address `a`. -/
def PyHeap.setCell {α : Type} (h : PyHeap α) (a : Nat) (l : List α) : PyHeap α :=
  { cells := h.cells.set a l }

/-- Allocate a fresh list object; returns the new heap and its address. -/
def PyHeap.alloc {α : Type} (h : PyHeap α) (l : List α) : PyHeap α × Nat :=
  ({ cells := h.cells ++ [l] }, h.cells.length)

/-- A `RetrievalIndex` object: it holds a reference to its `chunks` list. -/
structure RetrievalIndexRef where
  chunksAddr : Nat
deriving Repr

/-- `index` under reference semantics: `self.chunks.append(chunk)` mutates
the chunks list in place. -/
def indexH (h : PyHeap TokenChunk) (r : RetrievalIndexRef) (chunk : TokenChunk) : PyHeap TokenChunk :=
  h.setCell r.chunksAddr (h.getCell r.chunksAddr ++ [chunk])

/-- `query` under reference semantics: `results = self.chunks` aliases the
internal list; every `if x is not None:` branch taken rebinds `results` to
a freshly allocated comprehension. Returns the address of the result list. -/
def queryH (h : PyHeap TokenChunk) (r : RetrievalIndexRef) (type : Option TagType)
    (relevance : Option TagRelevance) (volatility : Option TagVolatility)
    (scope : Option TagScope) (trust : Option TagTrust) : Nat × PyHeap TokenChunk :=
  if type.isNone ∧ relevance.isNone ∧ volatility.isNone ∧ scope.isNone ∧
      trust.isNone then
    (r.chunksAddr, h)
  else
    let val := RetrievalIndex.query { chunks := h.getCell r.chunksAddr }
      type relevance volatility scope trust
    let (h', a) := h.alloc val
    (a, h')

/-- `critical` under reference semantics: delegates to `query` with the
relevance filter specified, so it always allocates. -/
def criticalH (h : PyHeap TokenChunk) (r : RetrievalIndexRef) : Nat × PyHeap TokenChunk :=
  queryH h r none (some TagRelevance.CRITICAL) none none none

/-- `stale` under reference semantics: a comprehension, always fresh. -/
def staleH (h : PyHeap TokenChunk) (r : RetrievalIndexRef) : Nat × PyHeap TokenChunk :=
  let val := RetrievalIndex.stale { chunks := h.getCell r.chunksAddr }
  let (h', a) := h.alloc val
  (a, h')

/-- `by_source` under reference semantics: a comprehension, always fresh. -/
def bySourceH (h : PyHeap TokenChunk) (r : RetrievalIndexRef) (source : String) :
    Nat × PyHeap TokenChunk :=
  let val := RetrievalIndex.by_source { chunks := h.getCell r.chunksAddr } source
  let (h', a) := h.alloc val
  (a, h')

/-- A `ContextShelf` object under reference semantics: capacity plus the
address of its `entries` list. -/
structure ContextShelfRef where
  capacity : Nat
  entriesAddr : Nat

/-- `store` under reference semantics: evictions (`entries.remove`) and the
final `append` all mutate the entries list in place, so the value-level
`store` runs on the cell's contents and the result is written back to the
same address. -/
def storeH (h : PyHeap ShelfEntry) (r : ContextShelfRef) (content : String)
    (tier : ShelfTier) (source : String) (tags : List (String × String))
    (now : Nat) : Except String ShelfEntry × PyHeap ShelfEntry :=
  let s : ContextShelf := { capacity := r.capacity, entries := h.getCell r.entriesAddr }
  let (res, s') := s.store content tier source tags now
  (res, h.setCell r.entriesAddr s'.entries)

/-- `retrieve` under reference semantics: `results = self.entries` aliases
the internal list when neither filter applies; each filtering comprehension
allocates a fresh list. The `touch` side effects hit the entry objects,
which live in the entries cell (and, when a fresh result list was built,
also in that copy). -/
def retrieveH (h : PyHeap ShelfEntry) (r : ContextShelfRef)
    (tier : Option ShelfTier) (tag_filter : List (String × String))
    (now : Nat) : Nat × PyHeap ShelfEntry :=
  let s : ContextShelf := { capacity := r.capacity, entries := h.getCell r.entriesAddr }
  let (res, s') := s.retrieve tier tag_filter now
  let h1 := h.setCell r.entriesAddr s'.entries
  if tier.isNone ∧ tag_filter.isEmpty then
    (r.entriesAddr, h1)
  else
    let (h2, a) := h1.alloc res
    (a, h2)

/-- `summarize_and_compress` under reference semantics: the removals and the
summary `append` mutate the entries list in place. -/
def compressH (h : PyHeap ShelfEntry) (r : ContextShelfRef) (tier : ShelfTier)
    (now : Nat) : Int × PyHeap ShelfEntry :=
  let s : ContextShelf := { capacity := r.capacity, entries := h.getCell r.entriesAddr }
  let (freed, s') := s.summarize_and_compress tier now
  (freed, h.setCell r.entriesAddr s'.entries)

/-- An entry is eviction-immune iff its tier is outside `_EVICTION_ORDER`
(i.e. HOT or PINNED). -/
def nonEvictB (e : ShelfEntry) : Bool :=
  !decide (e.tier ∈ EVICTION_ORDER)

/-- Total size of the eviction-immune (HOT/PINNED) entries: the tokens a
`store` call can never reclaim. -/
def keptTokens (s : ContextShelf) : Nat :=
  usedOf (s.entries.filter nonEvictB)

/-! ## Theorems -/

/-- C5: `stale()` returns exactly the chunks whose trust is STALE **or**
whose volatility is STALE_RISK — an OR across the two dimensions, unlike
`query`'s AND semantics. In particular a `trust=stale, volatility=live`
chunk and a `trust=verified, volatility=stale-risk` chunk are included,
while a `trust=verified, volatility=static` chunk is not. -/
theorem C5_stale_or_semantics (idx : RetrievalIndex) (c : TokenChunk) :
    c ∈ idx.stale ↔
      c ∈ idx.chunks ∧
        (c.tag.trust = TagTrust.STALE ∨ c.tag.volatility = TagVolatility.STALE_RISK) := by
  simp [RetrievalIndex.stale, List.mem_filter]

/-- C7: `query` has AND semantics — a chunk is returned iff it is indexed
and matches every specified dimension filter by equality, unspecified
dimensions being wildcards; with no filters, `query` returns every indexed
chunk (and a query with zero matches is simply the empty list, since
`query` is total). -/
theorem C7_query_and_semantics :
    (∀ (idx : RetrievalIndex) (ty : Option TagType) (rel : Option TagRelevance)
        (vol : Option TagVolatility) (sc : Option TagScope) (tr : Option TagTrust)
        (c : TokenChunk),
      c ∈ idx.query ty rel vol sc tr ↔
        c ∈ idx.chunks ∧
          (∀ x, ty = some x → c.tag.type = x) ∧
          (∀ x, rel = some x → c.tag.relevance = x) ∧
          (∀ x, vol = some x → c.tag.volatility = x) ∧
          (∀ x, sc = some x → c.tag.scope = x) ∧
          (∀ x, tr = some x → c.tag.trust = x))
    ∧ (∀ idx : RetrievalIndex, idx.query none none none none none = idx.chunks) := by
  constructor
  · intro idx ty rel vol sc tr c
    cases ty <;> cases rel <;> cases vol <;> cases sc <;> cases tr <;>
      simp [RetrievalIndex.query, List.mem_filter] <;> tauto
  · intro idx
    rfl

/-- C8: the shelf and the index agree on the approximate cost function —
`estimate_tokens` is `max 1 (length / 4)`, hence always a positive integer
(even for the empty string); `index_raw` records exactly that size for its
chunk, and a successful `store` records exactly that size on its entry. -/
theorem C8_size_agreement :
    (∀ text : String, estimate_tokens text = max 1 (text.length / 4))
    ∧ (∀ text : String, 1 ≤ estimate_tokens text)
    ∧ (∀ (idx : RetrievalIndex) (content source : String) (ty : TagType)
        (rel : TagRelevance) (vol : TagVolatility) (sc : TagScope) (tr : TagTrust)
        (md : List (String × String)),
      ((idx.index_raw content source ty rel vol sc tr md).1).token_count
        = estimate_tokens content)
    ∧ (∀ (s : ContextShelf) (content : String) (tier : ShelfTier) (source : String)
        (tags : List (String × String)) (now : Nat) (e : ShelfEntry),
      (s.store content tier source tags now).1 = Except.ok e →
        e.token_count = estimate_tokens content) := by
  refine ⟨fun _ => rfl, fun text => le_max_left 1 _, fun _ _ _ _ _ _ _ _ _ => rfl, ?_⟩
  intro s content tier source tags now e h
  unfold ContextShelf.store at h
  by_cases hc : (evictLoop (estimate_tokens content) s.entries.length s).remaining
      < (estimate_tokens content : Int)
  · simp [hc] at h
  · simp [hc] at h
    rw [← h]

/-- Closed witness for C8 at a concrete successful store. -/
theorem C8_size_agreement_witness :
    ((({ capacity := 10, entries := [] } : ContextShelf).store
        "abcdefgh" ShelfTier.HOT "user" [] 0).1
      = Except.ok ({ content := "abcdefgh",
                     tier := ShelfTier.HOT,
                     source := "user",
                     token_count := 2,
                     tags := [],
                     created_at := 0,
                     last_accessed := 0,
                     access_count := 0 } : ShelfEntry))
    ∧ (({ content := "abcdefgh",
          tier := ShelfTier.HOT,
          source := "user",
          token_count := 2,
          tags := [],
          created_at := 0,
          last_accessed := 0,
          access_count := 0 } : ShelfEntry).token_count = estimate_tokens "abcdefgh") :=
  ⟨by rfl, C8_size_agreement.2.2.2 { capacity := 10, entries := [] } "abcdefgh"
    ShelfTier.HOT "user" [] 0 _ (by rfl)⟩

/-- The `touch` side effect changes neither `tier` nor `tags`, so the
filter predicates of `retrieve` are stable under it. -/
theorem matches_touch (tier : Option ShelfTier) (tf : List (String × String))
    (e : ShelfEntry) (now : Nat) :
    matchesTier tier (e.touch now) = matchesTier tier e
      ∧ matchesTags tf (e.touch now) = matchesTags tf e := by
  cases tier <;> exact ⟨rfl, rfl⟩

/-- `retrieve` in closed form: the two sequential filter passes collapse to
one filter by `matchesTier && matchesTags`, the returned entries are the
touched matches, and the stored entries are touched exactly at the matches. -/
theorem retrieve_eq (s : ContextShelf) (tier : Option ShelfTier)
    (tf : List (String × String)) (now : Nat) :
    s.retrieve tier tf now
      = ((s.entries.filter (fun e => matchesTier tier e && matchesTags tf e)).map
           (fun e => e.touch now),
         { s with entries := s.entries.map (fun e =>
             if matchesTier tier e && matchesTags tf e then e.touch now else e) }) := by
  unfold ContextShelf.retrieve
  by_cases htf : tf.isEmpty
  · have htf' : tf = [] := List.isEmpty_iff.mp htf
    subst htf'
    cases tier with
    | none => simp [matchesTier, matchesTags]
    | some t => simp [matchesTier, matchesTags]
  · cases tier with
    | none => simp [matchesTier, htf]
    | some t =>
      have htf0 : tf.isEmpty = false := by simpa using htf
      simp only [htf0, Bool.false_or, if_false, List.filter_filter]
      have hfil : s.entries.filter (fun a => matchesTags tf a && (a.tier == t))
          = s.entries.filter (fun e => matchesTier (some t) e && matchesTags tf e) :=
        List.filter_congr (fun e _ => by simp [matchesTier, Bool.and_comm])
      rw [hfil]
      simp

/-- C6: `retrieve(tier?, tag_filter?)` returns, in insertion order, exactly
the entries matching the tier filter (equality) and the tag filter
(superset match on every key-value pair), touching each returned entry
(refreshing `last_accessed`, incrementing `access_count`); retrieving twice
with the same filters leaves each matching entry with `access_count`
increased by 2 and `last_accessed` at the second call's time. -/
theorem C6_retrieve_spec :
    (∀ (s : ContextShelf) (tier : Option ShelfTier) (tf : List (String × String))
        (now : Nat),
      (s.retrieve tier tf now).1
        = (s.entries.filter (fun e => matchesTier tier e && matchesTags tf e)).map
            (fun e => e.touch now))
    ∧ (∀ (s : ContextShelf) (tier : Option ShelfTier) (tf : List (String × String))
        (now : Nat),
      (s.retrieve tier tf now).2.entries
        = s.entries.map (fun e =>
            if matchesTier tier e && matchesTags tf e then e.touch now else e))
    ∧ (∀ (s : ContextShelf) (tier : Option ShelfTier) (tf : List (String × String))
        (now1 now2 : Nat),
      ((s.retrieve tier tf now1).2.retrieve tier tf now2).2.entries
        = s.entries.map (fun e =>
            if matchesTier tier e && matchesTags tf e then
              { e with last_accessed := now2, access_count := e.access_count + 2 }
            else e)) := by
  refine ⟨fun s tier tf now => by rw [retrieve_eq], fun s tier tf now => by rw [retrieve_eq], ?_⟩
  intro s tier tf now1 now2
  rw [retrieve_eq, retrieve_eq]
  simp only [List.map_map]
  refine List.map_congr_left (fun e _ => ?_)
  by_cases hp : (matchesTier tier e && matchesTags tf e) = true
  · have h1 := (matches_touch tier tf e now1).1
    have h2 := (matches_touch tier tf e now1).2
    simp only [Function.comp_apply, hp, if_true, h1, h2]
    simp only [ShelfEntry.touch]
  · simp [Function.comp, hp]

/-- C4: `summarize_and_compress(tier)` on a nonempty tier removes all of the
tier's entries, appends exactly one summary entry of that tier with source
"compression", whose recorded size is the cost estimate of the joined
previews (each content truncated at 200 chars with an ellipsis) and whose
stored content carries the `[COMPRESSED SUMMARY]` header before the joined
previews, and returns the original total size minus the summary's size; on
an empty tier it is a no-op returning 0. -/
theorem C4_compress_spec (s : ContextShelf) (tier : ShelfTier) (now : Nat) :
    (s.entries.filter (fun e => e.tier == tier) = [] →
      s.summarize_and_compress tier now = (0, s))
    ∧ (s.entries.filter (fun e => e.tier == tier) ≠ [] →
      ∃ summ : ShelfEntry,
        (s.summarize_and_compress tier now).2.entries
            = s.entries.filter (fun e => !(e.tier == tier)) ++ [summ]
        ∧ summ.tier = tier
        ∧ summ.source = "compression"
        ∧ summ.content
            = "[COMPRESSED SUMMARY]\n"
              ++ joinPreviews (s.entries.filter (fun e => e.tier == tier))
        ∧ summ.token_count
            = estimate_tokens (joinPreviews (s.entries.filter (fun e => e.tier == tier)))
        ∧ (s.summarize_and_compress tier now).1
            = (usedOf (s.entries.filter (fun e => e.tier == tier)) : Int)
              - (summ.token_count : Int)
        ∧ (s.summarize_and_compress tier now).2.entries.filter (fun e => e.tier == tier)
            = [summ]) := by
  constructor
  · intro h
    unfold ContextShelf.summarize_and_compress
    simp [h]
  · intro h
    have hne : (s.entries.filter (fun e => e.tier == tier)).isEmpty = false := by
      simpa [List.isEmpty_iff] using h
    unfold ContextShelf.summarize_and_compress
    simp only [hne, Bool.false_eq_true, if_false]
    refine ⟨_, rfl, rfl, rfl, rfl, rfl, rfl, ?_⟩
    rw [List.filter_append]
    have h1 : (s.entries.filter (fun e => !(e.tier == tier))).filter
        (fun e => e.tier == tier) = [] := by
      rw [List.filter_filter]
      simp
    rw [h1]
    simp

/-- Closed witness for C4: the empty-tier no-op at one concrete shelf, and
the full nonempty-tier consequent at another. -/
theorem C4_compress_spec_witness :
    let e1 : ShelfEntry := { content := "aaaaaaaa", tier := ShelfTier.SCRATCH,
                             source := "s1", token_count := 2, tags := [],
                             created_at := 0, last_accessed := 0, access_count := 0 }
    let e2 : ShelfEntry := { content := "bbbb", tier := ShelfTier.SCRATCH,
                             source := "s2", token_count := 1, tags := [],
                             created_at := 1, last_accessed := 1, access_count := 0 }
    let sB : ContextShelf := { capacity := 100, entries := [e1, e2] }
    (sB.summarize_and_compress ShelfTier.COLD 9 = (0, sB))
    ∧ (∃ summ : ShelfEntry,
        (sB.summarize_and_compress ShelfTier.SCRATCH 9).2.entries
            = sB.entries.filter (fun e => !(e.tier == ShelfTier.SCRATCH)) ++ [summ]
        ∧ summ.tier = ShelfTier.SCRATCH
        ∧ summ.source = "compression"
        ∧ summ.content
            = "[COMPRESSED SUMMARY]\n"
              ++ joinPreviews (sB.entries.filter (fun e => e.tier == ShelfTier.SCRATCH))
        ∧ summ.token_count
            = estimate_tokens
                (joinPreviews (sB.entries.filter (fun e => e.tier == ShelfTier.SCRATCH)))
        ∧ (sB.summarize_and_compress ShelfTier.SCRATCH 9).1
            = (usedOf (sB.entries.filter (fun e => e.tier == ShelfTier.SCRATCH)) : Int)
              - (summ.token_count : Int)
        ∧ (sB.summarize_and_compress ShelfTier.SCRATCH 9).2.entries.filter
              (fun e => e.tier == ShelfTier.SCRATCH)
            = [summ]) :=
  ⟨(C4_compress_spec _ ShelfTier.COLD 9).1 (by decide),
   (C4_compress_spec _ ShelfTier.SCRATCH 9).2 (by decide)⟩

/-- C10: the summary entry appended by `summarize_and_compress` records
`token_count = max 1 (len(combined) / 4)` computed from the joined previews
only, while its stored content is `"[COMPRESSED SUMMARY]\n" ++ combined`;
hence its recorded size is strictly smaller than the cost estimate of its
actual content — the shelf's accounting under-counts every summary entry
by the header's cost. -/
theorem C10_summary_undercount (s : ContextShelf) (tier : ShelfTier) (now : Nat)
    (h : s.entries.filter (fun e => e.tier == tier) ≠ []) :
    ∃ summ : ShelfEntry,
      (s.summarize_and_compress tier now).2.entries.getLast? = some summ
      ∧ summ.token_count
          = max 1 ((joinPreviews (s.entries.filter (fun e => e.tier == tier))).length / 4)
      ∧ summ.content
          = "[COMPRESSED SUMMARY]\n"
            ++ joinPreviews (s.entries.filter (fun e => e.tier == tier))
      ∧ summ.token_count < estimate_tokens summ.content := by
  have hne : (s.entries.filter (fun e => e.tier == tier)).isEmpty = false := by
    simpa [List.isEmpty_iff] using h
  unfold ContextShelf.summarize_and_compress
  simp only [hne, Bool.false_eq_true, if_false]
  refine ⟨_, List.getLast?_concat _, rfl, rfl, ?_⟩
  · show max 1 ((joinPreviews (s.entries.filter (fun e => e.tier == tier))).length / 4)
        < estimate_tokens ("[COMPRESSED SUMMARY]\n"
            ++ joinPreviews (s.entries.filter (fun e => e.tier == tier)))
    unfold estimate_tokens
    rw [String.length_append]
    have h21 : ("[COMPRESSED SUMMARY]\n" : String).length = 21 := by decide
    rw [h21]
    omega

/-- Closed witness for C10 at one concrete compression. -/
theorem C10_summary_undercount_witness :
    let e1 : ShelfEntry := { content := "aaaaaaaa", tier := ShelfTier.SCRATCH,
                             source := "s1", token_count := 2, tags := [],
                             created_at := 0, last_accessed := 0, access_count := 0 }
    let sC : ContextShelf := { capacity := 100, entries := [e1] }
    ∃ summ : ShelfEntry,
      (sC.summarize_and_compress ShelfTier.SCRATCH 9).2.entries.getLast? = some summ
      ∧ summ.token_count
          = max 1 ((joinPreviews (sC.entries.filter
              (fun e => e.tier == ShelfTier.SCRATCH))).length / 4)
      ∧ summ.content
          = "[COMPRESSED SUMMARY]\n"
            ++ joinPreviews (sC.entries.filter (fun e => e.tier == ShelfTier.SCRATCH))
      ∧ summ.token_count < estimate_tokens summ.content :=
  C10_summary_undercount _ ShelfTier.SCRATCH 9 (by decide)

/-- `minLA` is a lower bound on `last_accessed` over the list. -/
theorem minLA_le : ∀ (l : List ShelfEntry), ∀ e ∈ l, minLA l ≤ e.last_accessed
  | [], e, he => absurd he (List.not_mem_nil e)
  | [x], e, he => by
    rcases List.mem_singleton.mp he with rfl
    exact le_refl _
  | x :: y :: ys, e, he => by
    rcases List.mem_cons.mp he with rfl | hmem
    · exact min_le_left _ _
    · exact le_trans (min_le_right _ _) (minLA_le (y :: ys) e hmem)

/-- `minLA` is attained by some member of a nonempty list. -/
theorem minLA_mem : ∀ (l : List ShelfEntry), l ≠ [] →
    ∃ e ∈ l, e.last_accessed = minLA l
  | [], h => absurd rfl h
  | [x], _ => ⟨x, List.mem_singleton_self x, rfl⟩
  | x :: y :: ys, _ => by
    rcases le_total x.last_accessed (minLA (y :: ys)) with hle | hge
    · exact ⟨x, List.mem_cons_self x _, (min_eq_left hle).symm⟩
    · obtain ⟨e, hmem, he⟩ := minLA_mem (y :: ys) (List.cons_ne_nil y ys)
      refine ⟨e, List.mem_cons_of_mem x hmem, ?_⟩
      rw [he, show minLA (x :: y :: ys) = min x.last_accessed (minLA (y :: ys)) from rfl,
        min_eq_right hge]

/-- `removeFirst p` on a list containing a `p`-element splits the list at
the first such element and drops exactly it. -/
theorem removeFirst_spec (p : ShelfEntry → Bool) :
    ∀ (l : List ShelfEntry), (∃ x ∈ l, p x = true) →
      ∃ l1 e l2, l = l1 ++ e :: l2 ∧ p e = true ∧ (∀ y ∈ l1, p y = false) ∧
        removeFirst p l = l1 ++ l2
  | [], h => by simp at h
  | a :: l, h => by
    by_cases ha : p a = true
    · exact ⟨[], a, l, rfl, ha, by simp, by simp [removeFirst, ha]⟩
    · have h' : ∃ x ∈ l, p x = true := by
        obtain ⟨x, hx, hpx⟩ := h
        rcases List.mem_cons.mp hx with rfl | hmem
        · exact absurd hpx ha
        · exact ⟨x, hmem, hpx⟩
      obtain ⟨l1, e, l2, heq, hpe, hl1, hrm⟩ := removeFirst_spec p l h'
      refine ⟨a :: l1, e, l2, by rw [heq]; rfl, hpe, ?_, ?_⟩
      · intro y hy
        rcases List.mem_cons.mp hy with rfl | hmem
        · exact eq_false_of_ne_true ha
        · exact hl1 y hmem
      · simp [removeFirst, ha, hrm]

/-- Spec of the `_evict_one` tier loop: when some tier of `ts` has a
candidate, the loop removes exactly one entry — the first entry of the
first populated tier whose `last_accessed` is minimal in that tier. -/
theorem evictFromTiers_spec (ts : List ShelfTier) :
    ∀ (entries : List ShelfEntry) (t : ShelfTier),
      ts.find? (fun t' => entries.any (fun e' => e'.tier == t')) = some t →
      ∃ l1 e l2, entries = l1 ++ e :: l2 ∧ evictFromTiers entries ts = l1 ++ l2
        ∧ e.tier = t
        ∧ (∀ e' ∈ entries, e'.tier = t → e.last_accessed ≤ e'.last_accessed) := by
  induction ts with
  | nil => intro entries t hfind; simp at hfind
  | cons t0 ts ih =>
    intro entries t hfind
    by_cases hcand : (entries.filter (fun e => e.tier == t0)).isEmpty
    · have hany : entries.any (fun e' => e'.tier == t0) = false := by
        rcases List.isEmpty_iff.mp hcand with hnil
        rw [List.any_eq_false]
        intro e' he'
        have := List.filter_eq_nil_iff.mp hnil e' he'
        simpa using this
      rw [List.find?_cons, hany] at hfind
      obtain ⟨l1, e, l2, heq, hrm, htier, hmin⟩ := ih entries t hfind
      exact ⟨l1, e, l2, heq, by simpa [evictFromTiers, hcand] using hrm, htier, hmin⟩
    · have hany : entries.any (fun e' => e'.tier == t0) = true := by
        rcases List.isEmpty_eq_false_iff_exists_mem.mp
          (Bool.eq_false_iff.mpr hcand) with ⟨c, hc⟩
        have hcmem := List.mem_filter.mp hc
        exact List.any_eq_true.mpr ⟨c, hcmem.1, hcmem.2⟩
      rw [List.find?_cons, hany] at hfind
      have ht0 : t = t0 := by
        have := Option.some.inj hfind
        exact this.symm
      subst ht0
      have hcne : entries.filter (fun e => e.tier == t) ≠ [] := by
        intro hnil
        rw [hnil] at hcand
        simp at hcand
      obtain ⟨c, hcmem, hcla⟩ := minLA_mem _ hcne
      have hcf := List.mem_filter.mp hcmem
      have hex : ∃ x ∈ entries,
          (x.tier == t && x.last_accessed == minLA
            (entries.filter (fun e => e.tier == t))) = true := by
        refine ⟨c, hcf.1, ?_⟩
        rw [Bool.and_eq_true]
        exact ⟨hcf.2, by rw [hcla]; exact beq_self_eq_true _⟩
      obtain ⟨l1, e, l2, heq, hpe, _, hrm⟩ := removeFirst_spec _ entries hex
      rw [Bool.and_eq_true] at hpe
      have htier : e.tier = t := by simpa using hpe.1
      have hla : e.last_accessed
          = minLA (entries.filter (fun e => e.tier == t)) := by simpa using hpe.2
      refine ⟨l1, e, l2, heq, ?_, htier, ?_⟩
      · simpa [evictFromTiers, hcand] using hrm
      · intro e' he' htier'
        rw [hla]
        exact minLA_le _ e' (List.mem_filter.mpr ⟨he', by simpa using htier'⟩)

/-- C3: every single eviction performed by `_evict_one` removes exactly one
entry; its tier is the first of SCRATCH, COLD, WARM that holds at least one
entry, and within that tier it has the oldest `last_accessed`, regardless
of insertion order. -/
theorem C3_eviction_policy (s : ContextShelf) (h : s.can_evict = true) :
    ∃ t l1 e l2,
      EVICTION_ORDER.find? (fun t' => s.entries.any (fun e' => e'.tier == t')) = some t
      ∧ s.entries = l1 ++ e :: l2
      ∧ s.evict_one.entries = l1 ++ l2
      ∧ e.tier = t
      ∧ (∀ e' ∈ s.entries, e'.tier = t → e.last_accessed ≤ e'.last_accessed) := by
  have hsome : (EVICTION_ORDER.find?
      (fun t' => s.entries.any (fun e' => e'.tier == t'))).isSome := by
    rw [List.find?_isSome]
    unfold ContextShelf.can_evict at h
    obtain ⟨e, hmem, hdec⟩ := List.any_eq_true.mp h
    have htin : e.tier ∈ EVICTION_ORDER := by simpa using hdec
    exact ⟨e.tier, htin, List.any_eq_true.mpr ⟨e, hmem, beq_self_eq_true _⟩⟩
  obtain ⟨t, hfind⟩ := Option.isSome_iff_exists.mp hsome
  obtain ⟨l1, e, l2, heq, hrm, htier, hmin⟩ := evictFromTiers_spec EVICTION_ORDER s.entries t hfind
  exact ⟨t, l1, e, l2, hfind, heq, hrm, htier, hmin⟩

/-- Closed witness for C3: a shelf with one WARM entry and two COLD entries
picks COLD (no SCRATCH present) and, within COLD, the oldest
`last_accessed`, not the first inserted. -/
theorem C3_eviction_policy_witness :
    let w : ShelfEntry := { content := "w", tier := ShelfTier.WARM, source := "a",
                            token_count := 1, tags := [], created_at := 0,
                            last_accessed := 5, access_count := 0 }
    let c1 : ShelfEntry := { content := "c1", tier := ShelfTier.COLD, source := "b",
                             token_count := 1, tags := [], created_at := 0,
                             last_accessed := 9, access_count := 0 }
    let c2 : ShelfEntry := { content := "c2", tier := ShelfTier.COLD, source := "c",
                             token_count := 1, tags := [], created_at := 0,
                             last_accessed := 3, access_count := 0 }
    let sX : ContextShelf := { capacity := 10, entries := [w, c1, c2] }
    sX.can_evict = true ∧
    ∃ t l1 e l2,
      EVICTION_ORDER.find? (fun t' => sX.entries.any (fun e' => e'.tier == t')) = some t
      ∧ sX.entries = l1 ++ e :: l2
      ∧ sX.evict_one.entries = l1 ++ l2
      ∧ e.tier = t
      ∧ (∀ e' ∈ sX.entries, e'.tier = t → e.last_accessed ≤ e'.last_accessed) :=
  ⟨by decide, C3_eviction_policy _ (by decide)⟩

/-- Replacing an entry by one of equal `token_count` keeps the total. -/
theorem usedOf_set_same : ∀ (l : List ShelfEntry) (i : Nat) (e v : ShelfEntry),
    l[i]? = some e → v.token_count = e.token_count →
    usedOf (l.set i v) = usedOf l
  | [], i, e, v, h, _ => by simp at h
  | a :: l, 0, e, v, h, hv => by
    have ha : a = e := by simpa using h
    subst ha
    simp [usedOf, List.set, hv]
  | a :: l, i + 1, e, v, h, hv => by
    have h' : l[i]? = some e := by simpa using h
    have hrec := usedOf_set_same l i e v h' hv
    unfold usedOf at hrec ⊢
    simp only [List.set, List.map_cons, List.sum_cons]
    omega

/-- Filtering cannot increase the token total. -/
theorem usedOf_filter_le (q : ShelfEntry → Bool) :
    ∀ l : List ShelfEntry, usedOf (l.filter q) ≤ usedOf l
  | [] => le_refl _
  | e :: l => by
    have hrec := usedOf_filter_le q l
    unfold usedOf at hrec ⊢
    by_cases hq : q e = true
    · simp only [List.filter_cons, if_pos hq, List.map_cons, List.sum_cons]
      omega
    · simp only [List.filter_cons, if_neg hq, List.map_cons, List.sum_cons]
      omega

/-- When eviction is possible, `_can_evict`'s tier search succeeds and the
found tier is eviction-eligible. -/
theorem can_evict_find_some (s : ContextShelf) (h : s.can_evict = true) :
    ∃ t, EVICTION_ORDER.find? (fun t' => s.entries.any (fun e' => e'.tier == t')) = some t
      ∧ t ∈ EVICTION_ORDER := by
  have hsome : (EVICTION_ORDER.find?
      (fun t' => s.entries.any (fun e' => e'.tier == t'))).isSome := by
    rw [List.find?_isSome]
    unfold ContextShelf.can_evict at h
    obtain ⟨e, hmem, hdec⟩ := List.any_eq_true.mp h
    have htin : e.tier ∈ EVICTION_ORDER := by simpa using hdec
    exact ⟨e.tier, htin, List.any_eq_true.mpr ⟨e, hmem, beq_self_eq_true _⟩⟩
  obtain ⟨t, hfind⟩ := Option.isSome_iff_exists.mp hsome
  exact ⟨t, hfind, List.mem_of_find?_eq_some hfind⟩

/-- One `_evict_one` step on an evictable shelf shortens the entry list by
exactly one and leaves the eviction-immune entries untouched. -/
theorem evict_one_reduces (s : ContextShelf) (h : s.can_evict = true) :
    s.evict_one.entries.length + 1 = s.entries.length
      ∧ s.evict_one.entries.filter nonEvictB = s.entries.filter nonEvictB := by
  obtain ⟨t, hfind, htmem⟩ := can_evict_find_some s h
  obtain ⟨l1, e, l2, heq, hrm, htier, _⟩ := evictFromTiers_spec EVICTION_ORDER s.entries t hfind
  have hne : nonEvictB e = false := by
    simp [nonEvictB, htier, htmem]
  constructor
  · rw [show s.evict_one.entries = evictFromTiers s.entries EVICTION_ORDER from rfl,
      hrm, heq]
    simp only [List.length_append, List.length_cons]
    omega
  · rw [show s.evict_one.entries = evictFromTiers s.entries EVICTION_ORDER from rfl,
      hrm, heq]
    simp [List.filter_append, List.filter_cons, hne]

/-- A shelf with nothing evictable consists of eviction-immune entries only. -/
theorem can_evict_false_filter (s : ContextShelf) (h : s.can_evict = false) :
    s.entries.filter nonEvictB = s.entries := by
  apply List.filter_eq_self.mpr
  intro e hmem
  unfold ContextShelf.can_evict at h
  have := List.any_eq_false.mp h e hmem
  simp only [nonEvictB]
  simpa using this

/-- Invariants of `store`'s eviction loop, given enough fuel (one entry can
be evicted per iteration, so the initial list length suffices): capacity is
unchanged, eviction-immune entries are untouched, and if the loop stops
while the content still does not fit then nothing evictable remains. -/
theorem evictLoop_spec (tc : Nat) (fuel : Nat) :
    ∀ s : ContextShelf, s.entries.length ≤ fuel →
      (evictLoop tc fuel s).capacity = s.capacity
        ∧ (evictLoop tc fuel s).entries.filter nonEvictB = s.entries.filter nonEvictB
        ∧ ((evictLoop tc fuel s).remaining < (tc : Int) →
            (evictLoop tc fuel s).can_evict = false) := by
  induction fuel with
  | zero =>
    intro s hle
    have hnil : s.entries = [] := List.eq_nil_of_length_eq_zero (Nat.le_zero.mp hle)
    refine ⟨rfl, rfl, fun _ => ?_⟩
    show s.can_evict = false
    simp [ContextShelf.can_evict, hnil]
  | succ fuel ih =>
    intro s hle
    by_cases hc : s.remaining < (tc : Int) ∧ s.can_evict = true
    · have hred := evict_one_reduces s hc.2
      have hle' : s.evict_one.entries.length ≤ fuel := by omega
      have hih := ih s.evict_one hle'
      have hstep : evictLoop tc (fuel + 1) s = evictLoop tc fuel s.evict_one := by
        simp [evictLoop, hc]
      rw [hstep]
      exact ⟨hih.1, hih.2.1.trans hred.2, hih.2.2⟩
    · have hstep : evictLoop tc (fuel + 1) s = s := by
        simp only [evictLoop, if_neg hc]
      rw [hstep]
      refine ⟨rfl, rfl, fun hrem => ?_⟩
      by_contra hcan
      exact hc ⟨hrem, Bool.eq_true_of_not_eq_false hcan⟩

/-- C2: `store` raises the Capacity error iff, with every eviction-eligible
entry (all SCRATCH/COLD/WARM) gone, the remaining capacity is still smaller
than the new content's size; on error the new entry is not added (the
post-state is exactly the eviction-immune entries), and no HOT or PINNED
entry is ever removed by `store`, on success or failure. -/
theorem C2_store_error_spec (s : ContextShelf) (content : String)
    (tier : ShelfTier) (source : String) (tags : List (String × String))
    (now : Nat) :
    (((s.store content tier source tags now).1).isOk = false
        ↔ (s.capacity : Int) - (keptTokens s : Int) < (estimate_tokens content : Int))
    ∧ (((s.store content tier source tags now).1).isOk = false →
        (s.store content tier source tags now).2.entries = s.entries.filter nonEvictB)
    ∧ (∀ e : ShelfEntry, (s.store content tier source tags now).1 = Except.ok e →
        (s.store content tier source tags now).2.entries.filter nonEvictB
          = s.entries.filter nonEvictB ++ (if nonEvictB e then [e] else [])) := by
  have hloop := evictLoop_spec (estimate_tokens content) s.entries.length s le_rfl
  by_cases hc : (evictLoop (estimate_tokens content) s.entries.length s).remaining
      < ((estimate_tokens content : Nat) : Int)
  · -- error branch: post-state is the loop result, nothing evictable remains
    have hcan : (evictLoop (estimate_tokens content) s.entries.length s).can_evict
        = false := hloop.2.2 hc
    have hall : (evictLoop (estimate_tokens content) s.entries.length s).entries.filter
        nonEvictB = (evictLoop (estimate_tokens content) s.entries.length s).entries :=
      can_evict_false_filter _ hcan
    have hkept : keptTokens s
        = (evictLoop (estimate_tokens content) s.entries.length s).used := by
      unfold keptTokens ContextShelf.used
      rw [← hloop.2.1, hall]
    refine ⟨?_, ?_, ?_⟩
    · simp only [ContextShelf.store, hc, if_true]
      constructor
      · intro _
        have hrem : (evictLoop (estimate_tokens content) s.entries.length s).remaining
            = (s.capacity : Int) - (keptTokens s : Int) := by
          unfold ContextShelf.remaining
          rw [hkept, hloop.1]
        rw [← hrem]
        exact hc
      · intro _
        rfl
    · intro _
      simp only [ContextShelf.store, hc, if_true]
      rw [← hloop.2.1, hall]
    · intro e he
      simp only [ContextShelf.store, hc, if_true] at he
      exact absurd he (by simp)
  · -- success branch: the loop found room; the new entry is appended
    refine ⟨?_, ?_, ?_⟩
    · simp only [ContextShelf.store, hc, if_false]
      constructor
      · intro habs
        exact absurd habs (by simp [Except.isOk, Except.toBool])
      · intro hlt
        exfalso
        have hused : usedOf ((evictLoop (estimate_tokens content)
              s.entries.length s).entries.filter nonEvictB)
            ≤ (evictLoop (estimate_tokens content) s.entries.length s).used :=
          usedOf_filter_le _ _
        rw [hloop.2.1] at hused
        have hrem : ¬ (evictLoop (estimate_tokens content) s.entries.length s).remaining
            < ((estimate_tokens content : Nat) : Int) := hc
        unfold ContextShelf.remaining at hrem
        rw [hloop.1] at hrem
        unfold keptTokens at hlt
        omega
    · intro habs
      exfalso
      simp only [ContextShelf.store, hc, if_false] at habs
      simp [Except.isOk, Except.toBool] at habs
    · intro e he
      simp only [ContextShelf.store, hc, if_false] at he ⊢
      have he' : ({ content := content,
                    tier := tier,
                    source := source,
                    token_count := estimate_tokens content,
                    tags := tags,
                    created_at := now,
                    last_accessed := now,
                    access_count := 0 } : ShelfEntry) = e :=
        Except.ok.inj he
      rw [List.filter_append, hloop.2.1, he']
      congr 1
      cases hne : nonEvictB e <;> simp [List.filter_cons, hne]

/-- Closed witness for C2: a full shelf holding only a HOT entry rejects a
store and keeps the HOT entry; the post-state is exactly the immune entries. -/
theorem C2_store_error_spec_witness :
    let hotE : ShelfEntry := { content := "hhhh", tier := ShelfTier.HOT,
                               source := "h", token_count := 1, tags := [],
                               created_at := 0, last_accessed := 0, access_count := 0 }
    let sE : ContextShelf := { capacity := 1, entries := [hotE] }
    ((sE.store "xxxxxxxx" ShelfTier.SCRATCH "s" [] 5).1).isOk = false
      ∧ (sE.store "xxxxxxxx" ShelfTier.SCRATCH "s" [] 5).2.entries
          = sE.entries.filter nonEvictB := by
  intro hotE sE
  have h := C2_store_error_spec sE "xxxxxxxx" ShelfTier.SCRATCH "s" [] 5
  have herr : ((sE.store "xxxxxxxx" ShelfTier.SCRATCH "s" [] 5).1).isOk = false :=
    h.1.mpr (by decide)
  exact ⟨herr, h.2.1 herr⟩

/-- C1 fails as stated: `summarize_and_compress` can push `used` above
`capacity`, because the summary's joined previews add `[source]: ` prefixes
and separators that can outweigh what compression saves. Two successful
stores fill a 2-token shelf exactly; compressing the tier then yields a
3-token summary, so `used = 3 > 2 = capacity` after the call returns. -/
theorem C1_counterexample :
    let s0 : ContextShelf := { capacity := 2, entries := [] }
    let r1 := s0.store "" ShelfTier.SCRATCH "s" [] 0
    let r2 := r1.2.store "" ShelfTier.SCRATCH "s" [] 1
    let r3 := r2.2.summarize_and_compress ShelfTier.SCRATCH 2
    r1.1.isOk = true ∧ r2.1.isOk = true
      ∧ r2.2.used ≤ r2.2.capacity
      ∧ r3.2.capacity < r3.2.used := by
  decide

/-- C1 (amended): the capacity invariant `used ≤ capacity` holds after every
successful `store` (with no precondition on the pre-state), and `retrieve`,
`promote` and `demote` leave `used` and `capacity` unchanged, hence preserve
it; `summarize_and_compress` is exempt (see the counterexample). -/
theorem C1_capacity_invariant_amended :
    (∀ (s : ContextShelf) (content : String) (tier : ShelfTier) (source : String)
        (tags : List (String × String)) (now : Nat),
      ((s.store content tier source tags now).1).isOk = true →
        ((s.store content tier source tags now).2).used
          ≤ ((s.store content tier source tags now).2).capacity)
    ∧ (∀ (s : ContextShelf) (tier : Option ShelfTier) (tf : List (String × String))
        (now : Nat),
      ((s.retrieve tier tf now).2).used = s.used
        ∧ ((s.retrieve tier tf now).2).capacity = s.capacity)
    ∧ (∀ (s : ContextShelf) (i : Nat) (nt : ShelfTier) (now : Nat),
      (s.promote i nt now).used = s.used ∧ (s.promote i nt now).capacity = s.capacity)
    ∧ (∀ (s : ContextShelf) (i : Nat) (nt : ShelfTier),
      (s.demote i nt).used = s.used ∧ (s.demote i nt).capacity = s.capacity) := by
  refine ⟨?_, ?_, ?_, ?_⟩
  · intro s content tier source tags now hok
    have hloop := evictLoop_spec (estimate_tokens content) s.entries.length s le_rfl
    by_cases hc : (evictLoop (estimate_tokens content) s.entries.length s).remaining
        < ((estimate_tokens content : Nat) : Int)
    · exfalso
      simp only [ContextShelf.store, hc, if_true] at hok
      simp [Except.isOk, Except.toBool] at hok
    · simp only [ContextShelf.store, hc, if_false]
      unfold ContextShelf.remaining at hc
      unfold ContextShelf.used usedOf at hc ⊢
      simp only [List.map_append, List.sum_append, List.map_cons,
        List.map_nil, List.sum_cons, List.sum_nil] at hc ⊢
      omega
  · intro s tier tf now
    refine ⟨?_, rfl⟩
    show usedOf (s.entries.map _) = usedOf s.entries
    unfold usedOf
    rw [List.map_map]
    congr 1
    refine List.map_congr_left (fun e _ => ?_)
    by_cases hp : (matchesTier tier e && (tf.isEmpty || matchesTags tf e)) = true <;>
      simp [Function.comp, hp, ShelfEntry.touch]
  · intro s i nt now
    cases hi : s.entries[i]? with
    | none => simp [ContextShelf.promote, ContextShelf.used, hi]
    | some e =>
      constructor
      · unfold ContextShelf.promote
        rw [hi]
        exact usedOf_set_same s.entries i e _ hi rfl
      · unfold ContextShelf.promote
        rw [hi]
  · intro s i nt
    cases hi : s.entries[i]? with
    | none => simp [ContextShelf.demote, ContextShelf.used, hi]
    | some e =>
      constructor
      · unfold ContextShelf.demote
        rw [hi]
        exact usedOf_set_same s.entries i e _ hi rfl
      · unfold ContextShelf.demote
        rw [hi]

/-- Closed witness for C1 (amended) at one concrete successful store. -/
theorem C1_capacity_invariant_amended_witness :
    let s0 : ContextShelf := { capacity := 10, entries := [] }
    ((s0.store "abcd" ShelfTier.HOT "u" [] 0).1).isOk = true
      ∧ ((s0.store "abcd" ShelfTier.HOT "u" [] 0).2).used
          ≤ ((s0.store "abcd" ShelfTier.HOT "u" [] 0).2).capacity :=
  ⟨by decide, C1_capacity_invariant_amended.1 _ "abcd" ShelfTier.HOT "u" [] 0 (by decide)⟩

/-- Writing one heap cell leaves every other cell unchanged. -/
theorem getCell_setCell_ne {α : Type} (h : PyHeap α) (a b : Nat) (l : List α)
    (hne : b ≠ a) : (h.setCell b l).getCell a = h.getCell a := by
  unfold PyHeap.getCell PyHeap.setCell
  rw [List.getElem?_set_ne hne]

/-- A freshly allocated cell is untouched by a later write to any cell that
already existed before the allocation. -/
theorem fresh_cell_stable {α : Type} (h : PyHeap α) (val l' : List α) (b : Nat)
    (hb : b < h.cells.length) :
    (((h.alloc val).1).setCell b l').getCell (h.alloc val).2
      = ((h.alloc val).1).getCell (h.alloc val).2 :=
  getCell_setCell_ne _ _ _ _ (Nat.ne_of_lt hb)

/-- C9 fails as stated: `query()` with no filters returns the index's
internal live chunk list (Python `results = self.chunks` aliases it), so a
later `index()` call changes the membership of the already-returned
sequence: `c2` was not in the returned list when `query` returned, and is
in it after the subsequent `index(c2)`. -/
theorem C9_counterexample :
    let tg : Tag := { type := TagType.SOURCE_CODE, relevance := TagRelevance.CRITICAL,
                      volatility := TagVolatility.STATIC, scope := TagScope.THIS_FILE,
                      trust := TagTrust.VERIFIED }
    let c1 : TokenChunk := { content := "a", source := "s", token_count := 1,
                             tag := tg, metadata := [] }
    let c2 : TokenChunk := { content := "b", source := "s", token_count := 1,
                             tag := tg, metadata := [] }
    let h0 : PyHeap TokenChunk := { cells := [[]] }
    let r : RetrievalIndexRef := { chunksAddr := 0 }
    let h1 := indexH h0 r c1
    let q := queryH h1 r none none none none none
    let h2 := indexH q.2 r c2
    c2 ∉ q.2.getCell q.1 ∧ c2 ∈ h2.getCell q.1 := by
  decide

/-- C9 (amended): sequences returned by `query` with at least one dimension
filter specified — and by `stale`, `critical` and `by_source`, which always
build fresh lists — are snapshots: a subsequent `index` call does not change
them; likewise `retrieve` with a tier or tag filter returns a snapshot that
subsequent `store` or `summarize_and_compress` calls do not change.
`query()` and `retrieve()` with no filters instead return the object's
internal live list (their result address is the stored list's address), so
later mutation does change the membership of those returned sequences. -/
theorem C9_snapshot_amended :
    (∀ (h : PyHeap TokenChunk) (r : RetrievalIndexRef) (ty : Option TagType)
        (rel : Option TagRelevance) (vol : Option TagVolatility)
        (sc : Option TagScope) (tr : Option TagTrust),
      ¬(ty.isNone = true ∧ rel.isNone = true ∧ vol.isNone = true
          ∧ sc.isNone = true ∧ tr.isNone = true) →
      r.chunksAddr < h.cells.length →
      ∀ c, (indexH (queryH h r ty rel vol sc tr).2 r c).getCell
              (queryH h r ty rel vol sc tr).1
            = (queryH h r ty rel vol sc tr).2.getCell (queryH h r ty rel vol sc tr).1)
    ∧ (∀ (h : PyHeap TokenChunk) (r : RetrievalIndexRef),
        (queryH h r none none none none none).1 = r.chunksAddr)
    ∧ (∀ (h : PyHeap TokenChunk) (r : RetrievalIndexRef),
        r.chunksAddr < h.cells.length →
        ∀ c, (indexH (staleH h r).2 r c).getCell (staleH h r).1
              = (staleH h r).2.getCell (staleH h r).1)
    ∧ (∀ (h : PyHeap TokenChunk) (r : RetrievalIndexRef),
        r.chunksAddr < h.cells.length →
        ∀ c, (indexH (criticalH h r).2 r c).getCell (criticalH h r).1
              = (criticalH h r).2.getCell (criticalH h r).1)
    ∧ (∀ (h : PyHeap TokenChunk) (r : RetrievalIndexRef) (source : String),
        r.chunksAddr < h.cells.length →
        ∀ c, (indexH (bySourceH h r source).2 r c).getCell (bySourceH h r source).1
              = (bySourceH h r source).2.getCell (bySourceH h r source).1)
    ∧ (∀ (h : PyHeap ShelfEntry) (r : ContextShelfRef) (tier : Option ShelfTier)
        (tf : List (String × String)) (now : Nat),
      ¬(tier.isNone = true ∧ tf.isEmpty = true) →
      r.entriesAddr < h.cells.length →
      (∀ (content : String) (t2 : ShelfTier) (src : String)
          (tags : List (String × String)) (now2 : Nat),
        (storeH (retrieveH h r tier tf now).2 r content t2 src tags now2).2.getCell
            (retrieveH h r tier tf now).1
          = (retrieveH h r tier tf now).2.getCell (retrieveH h r tier tf now).1)
      ∧ (∀ (t2 : ShelfTier) (now2 : Nat),
        (compressH (retrieveH h r tier tf now).2 r t2 now2).2.getCell
            (retrieveH h r tier tf now).1
          = (retrieveH h r tier tf now).2.getCell (retrieveH h r tier tf now).1))
    ∧ (∀ (h : PyHeap ShelfEntry) (r : ContextShelfRef) (now : Nat),
        (retrieveH h r none [] now).1 = r.entriesAddr) := by
  refine ⟨?_, fun h r => rfl, ?_, ?_, ?_, ?_, fun h r now => rfl⟩
  · intro h r ty rel vol sc tr hno hr c
    simp only [queryH, if_neg hno]
    exact fresh_cell_stable h _ _ r.chunksAddr hr
  · intro h r hr c
    exact fresh_cell_stable h _ _ r.chunksAddr hr
  · intro h r hr c
    simp only [criticalH, queryH]
    rw [if_neg (by simp)]
    exact fresh_cell_stable h _ _ r.chunksAddr hr
  · intro h r source hr c
    exact fresh_cell_stable h _ _ r.chunksAddr hr
  · intro h r tier tf now hno hr
    have hb : r.entriesAddr
        < (PyHeap.setCell h r.entriesAddr
            ((({ capacity := r.capacity, entries := h.getCell r.entriesAddr } :
              ContextShelf).retrieve tier tf now).2.entries)).cells.length := by
      unfold PyHeap.setCell
      simpa [List.length_set] using hr
    constructor
    · intro content t2 src tags now2
      simp only [retrieveH, if_neg hno]
      exact fresh_cell_stable _ _ _ r.entriesAddr hb
    · intro t2 now2
      simp only [retrieveH, if_neg hno]
      exact fresh_cell_stable _ _ _ r.entriesAddr hb

/-- Closed witness for C9 (amended): a filtered query's returned cell is
unchanged by a subsequent `index` call at one concrete heap. -/
theorem C9_snapshot_amended_witness :
    let tg : Tag := { type := TagType.SOURCE_CODE, relevance := TagRelevance.CRITICAL,
                      volatility := TagVolatility.STATIC, scope := TagScope.THIS_FILE,
                      trust := TagTrust.VERIFIED }
    let c1 : TokenChunk := { content := "a", source := "s", token_count := 1,
                             tag := tg, metadata := [] }
    let c2 : TokenChunk := { content := "b", source := "s", token_count := 1,
                             tag := tg, metadata := [] }
    let h1 : PyHeap TokenChunk := { cells := [[c1]] }
    let r : RetrievalIndexRef := { chunksAddr := 0 }
    (indexH (queryH h1 r (some TagType.SOURCE_CODE) none none none none).2 r c2).getCell
        (queryH h1 r (some TagType.SOURCE_CODE) none none none none).1
      = (queryH h1 r (some TagType.SOURCE_CODE) none none none none).2.getCell
          (queryH h1 r (some TagType.SOURCE_CODE) none none none none).1 :=
  C9_snapshot_amended.1 _ _ (some TagType.SOURCE_CODE) none none none none
    (by simp) (by decide) _

/-- Closed witness for C5 at a concrete index and chunk. -/
theorem C5_stale_or_semantics_witness :
    let tg : Tag := { type := TagType.DOCS, relevance := TagRelevance.USEFUL,
                      volatility := TagVolatility.LIVE, scope := TagScope.THIS_FILE,
                      trust := TagTrust.STALE }
    let cS : TokenChunk := { content := "x", source := "s", token_count := 1,
                             tag := tg, metadata := [] }
    let idxS : RetrievalIndex := { chunks := [cS] }
    cS ∈ idxS.stale ↔
      cS ∈ idxS.chunks ∧
        (cS.tag.trust = TagTrust.STALE ∨ cS.tag.volatility = TagVolatility.STALE_RISK) :=
  C5_stale_or_semantics _ _

/-- Closed witness for C7 at a concrete index and chunk. -/
theorem C7_query_and_semantics_witness :
    let tg : Tag := { type := TagType.SOURCE_CODE, relevance := TagRelevance.CRITICAL,
                      volatility := TagVolatility.STATIC, scope := TagScope.THIS_FILE,
                      trust := TagTrust.VERIFIED }
    let cQ : TokenChunk := { content := "y", source := "s", token_count := 1,
                             tag := tg, metadata := [] }
    let idxQ : RetrievalIndex := { chunks := [cQ] }
    cQ ∈ idxQ.query (some TagType.SOURCE_CODE) (some TagRelevance.CRITICAL)
        none none none ↔
      cQ ∈ idxQ.chunks ∧
        (∀ x, some TagType.SOURCE_CODE = some x → cQ.tag.type = x) ∧
        (∀ x, some TagRelevance.CRITICAL = some x → cQ.tag.relevance = x) ∧
        (∀ x, (none : Option TagVolatility) = some x → cQ.tag.volatility = x) ∧
        (∀ x, (none : Option TagScope) = some x → cQ.tag.scope = x) ∧
        (∀ x, (none : Option TagTrust) = some x → cQ.tag.trust = x) :=
  C7_query_and_semantics.1 _ _ _ _ _ _ _

/-- Closed witness for C6 at a concrete shelf. -/
theorem C6_retrieve_spec_witness :
    let eH : ShelfEntry := { content := "h", tier := ShelfTier.HOT, source := "a",
                             token_count := 1, tags := [("k", "v")], created_at := 0,
                             last_accessed := 0, access_count := 0 }
    let sR : ContextShelf := { capacity := 10, entries := [eH] }
    (sR.retrieve (some ShelfTier.HOT) [("k", "v")] 7).1
      = (sR.entries.filter (fun e =>
          matchesTier (some ShelfTier.HOT) e && matchesTags [("k", "v")] e)).map
          (fun e => e.touch 7) :=
  C6_retrieve_spec.1 _ (some ShelfTier.HOT) [("k", "v")] 7

end Grimoire
